import Mathlib

/-!
Shallow embedding of the calibration core of the rgbd_calibration repository
(`src/rgbd_calibration/calibration.cpp` and `include/rgbd_calibration/calibration.h`)
together with proofs about the properties its specification states.

Scalar arithmetic of the C++ code (templated over `T` in the ceres residual
functors, `double` elsewhere) is embedded over `ℚ`, with the external
real-valued functions the code calls (`sqrt`, `cos`, `sin`, the camera
projection) threaded as parameters, so that every definition is executable
and claims can be evaluated on concrete inputs.
-/

namespace RGBDCalib

/-! ## Scalars, points, small vector helpers -/

/-- 2D point (pixel coordinates), `Point2` in the code. -/
abbrev Pt2 : Type := ℚ × ℚ

/-- 3D point, `Point3` / `PCLPoint3` coordinates in the code. -/
abbrev Pt3 : Type := ℚ × ℚ × ℚ

/-- Componentwise subtraction of 2D points. -/
def sub2 (a b : Pt2) : Pt2 := (a.1 - b.1, a.2 - b.2)

/-- Componentwise subtraction of 3D points. -/
def sub3 (a b : Pt3) : Pt3 := (a.1 - b.1, a.2.1 - b.2.1, a.2.2 - b.2.2)

/-- Componentwise addition of 3D points. -/
def add3 (a b : Pt3) : Pt3 := (a.1 + b.1, a.2.1 + b.2.1, a.2.2 + b.2.2)

/-- Scalar multiple of a 3D point. -/
def smul3 (c : ℚ) (a : Pt3) : Pt3 := (c * a.1, c * a.2.1, c * a.2.2)

/-- Dot product of 3D points. -/
def dot3 (a b : Pt3) : ℚ := a.1 * b.1 + a.2.1 * b.2.1 + a.2.2 * b.2.2

/-- Cross product of 3D points. -/
def cross3 (a b : Pt3) : Pt3 :=
  (a.2.1 * b.2.2 - a.2.2 * b.2.1, a.2.2 * b.1 - a.1 * b.2.2, a.1 * b.2.1 - a.2.1 * b.1)

/-- The z coordinate (depth) of a 3D point. -/
def zOf (a : Pt3) : ℚ := a.2.2

/-- Exact rational square root used to instantiate the abstract `sqrt`
parameter on concrete inputs whose value is a perfect square. -/
def ratSqrt (q : ℚ) : ℚ := (Nat.sqrt q.num.toNat : ℚ) / (Nat.sqrt q.den : ℚ)

/-- Euclidean norm of a 2D vector, with the square root threaded as a
parameter (the code computes it on the templated scalar `T`). -/
def norm2 (sqrt : ℚ → ℚ) (a : Pt2) : ℚ := sqrt (a.1 * a.1 + a.2 * a.2)

/-- Horner evaluation of a polynomial given coefficients from the highest
degree down, as in `ceres::poly_eval`. -/
def polyEval (coeffs : List ℚ) (x : ℚ) : ℚ :=
  coeffs.foldl (fun v c => v * x + c) 0

/-! ## Point clouds and `Calibration::addData_` down-sampling

A `pcl::PointCloud<pcl::PointXYZ>` is embedded as a width × height organized
list of optional points; `none` stands for a point with a non-finite
coordinate (`pcl::isFinite` fails). `at j i` is the code's `cloud->at(j, i)`:
column `j`, row `i`, row-major storage. -/

/-- Organized point cloud: the embedding of `PCLCloud3`. -/
structure PCLCloud where
  width : Nat
  height : Nat
  points : List (Option Pt3)
  isDense : Bool

/-- The code's `cloud->at(j, i)`: column `j`, row `i`. Out-of-range access
(undefined behaviour in C++) is embedded as a non-finite point. -/
def PCLCloud.atP (c : PCLCloud) (j i : Nat) : Option Pt3 :=
  c.points.getD (i * c.width + j) none

/-- Lexicographic list of in-block offsets `(di, dj)`, the iteration order of
the two inner loops of `addData_`. -/
def blockOffsets (r : Nat) : List (Nat × Nat) :=
  (List.range r).flatMap (fun di => (List.range r).map (fun dj => (di, dj)))

/-- The input point read by the inner loops of `addData_` for output cell
`(j, i)` and in-block offset `d = (di, dj)`. -/
def blockRead (c : PCLCloud) (r j i : Nat) (d : Nat × Nat) : Option Pt3 :=
  c.atP (j * r + d.2) (i * r + d.1)

/-- One step of the accumulation of `addData_`: a finite point is added to
the running sum and counted, a non-finite point is skipped. -/
def accumStep (f : Nat × Nat → Option Pt3) (acc : Pt3 × Nat) (d : Nat × Nat) :
    Pt3 × Nat :=
  match f d with
  | some p => (add3 acc.1 p, acc.2 + 1)
  | none => acc

/-- The accumulation performed by the inner loops of `addData_` for output
cell `(j, i)`: sum of the finite points of the r × r input block and their
count. -/
def blockAccum (c : PCLCloud) (r j i : Nat) : Pt3 × Nat :=
  (blockOffsets r).foldl (accumStep (blockRead c r j i))
    (((0 : ℚ), (0 : ℚ), (0 : ℚ)), 0)

/-- The finite points of the r × r input block for output cell `(j, i)`,
in iteration order. -/
def blockFinites (c : PCLCloud) (r j i : Nat) : List Pt3 :=
  (blockOffsets r).filterMap (blockRead c r j i)

/-- Sum of a list of 3D points, in accumulation order. -/
def sumPts (l : List Pt3) : Pt3 :=
  l.foldl add3 ((0 : ℚ), (0 : ℚ), (0 : ℚ))

/-- Output point for cell `(j, i)`: the mean of the accumulated finite points
when the count is positive, the explicit NaN `bad_point` (embedded as `none`)
otherwise. -/
def downPoint (c : PCLCloud) (r j i : Nat) : Option Pt3 :=
  let acc := blockAccum c r j i
  if acc.2 > 0 then some (smul3 ((acc.2 : ℚ))⁻¹ acc.1) else none

/-- Row-major list of output cells `(i, j)`, the iteration order of the two
outer loops of `addData_`. -/
def cellList (w h : Nat) : List (Nat × Nat) :=
  (List.range h).flatMap (fun i => (List.range w).map (fun j => (i, j)))

/-- The point-buffer write of one output cell: `new_cloud->at(j, i) = p`
with `at(j, i)` stored at index `i * width + j`. -/
def writeCell (c : PCLCloud) (r w : Nat) (lst : List (Option Pt3)) (cell : Nat × Nat) :
    List (Option Pt3) :=
  lst.set (cell.1 * w + cell.2) (downPoint c r cell.2 cell.1)

/-- One iteration of the outer loops of `addData_`: write the output point
of cell `(i, j)` and clear the dense flag when its block held no finite
point. -/
def downsampleStep (c : PCLCloud) (r w : Nat) (acc : List (Option Pt3) × Bool)
    (cell : Nat × Nat) : List (Option Pt3) × Bool :=
  (writeCell c r w acc.1 cell, acc.2 && (downPoint c r cell.2 cell.1).isSome)

/-- The down-sampling branch of `Calibration::addData_` for `ratio_ > 1`:
the new cloud is resized to `size / (ratio * ratio)` (value-initialized
points), its width and height are the truncating quotients, and each output
cell is overwritten with the block mean or the NaN point, clearing the dense
flag when a block holds no finite point. -/
def downsample (c : PCLCloud) (r : Nat) : PCLCloud :=
  let w := c.width / r
  let h := c.height / r
  let init : List (Option Pt3) :=
    List.replicate (c.points.length / (r * r)) (some ((0 : ℚ), (0 : ℚ), (0 : ℚ)))
  let res := (cellList w h).foldl (downsampleStep c r w) (init, c.isDense)
  { width := w, height := h, points := res.1, isDense := res.2 }

/-- Depth payload stored by `Calibration::addData_`: the cloud is
down-sampled exactly when `ratio_ > 1`. -/
def addDataDepth (ratio : Nat) (c : PCLCloud) : PCLCloud :=
  if ratio > 1 then downsample c ratio else c

/-! ## Orchestration: `perform`, `estimateInitialTransform`, `estimateTransform`

Checkerboard views are kept abstract (`α`); the depth-undistortion estimation
phases and the plane-based extrinsic calibration live in this repository but
outside `src/`, so they appear as events in an observable trace, and the
plane-extraction outcome of `estimateLocalModelReverse` is an oracle input
(`planes`: `some pl` when `plane_extracted_` with estimated plane `pl`). -/

/-- Observable steps of the orchestrator. -/
inductive PEvent (α : Type) where
  | extractAll
  | estimateLocalModel
  | estimateLocalModelReverse
  | estimateGlobalModel
  | planeCalib (views : List α)
  | optimizeTransformEv (views : List α)
  deriving DecidableEq

/-- Whether an event is a run of the transform-only optimizer
(`Calibration::optimizeTransform`). -/
def PEvent.isOptimizeTransform : PEvent α → Bool
  | .optimizeTransformEv _ => true
  | _ => false

/-- Accumulated input of `PlaneBasedExtrinsicCalibration` as filled by
`Calibration::estimateTransform`: the views whose (color checkerboard, depth
plane) pairs were added, and the final `index` passed to `setSize`. -/
structure PlaneCalibInput (α : Type) where
  pairs : List α
  size : Nat

/-- The loop of `Calibration::estimateTransform`: null entries are skipped,
each non-null view contributes one data pair and advances `index`. -/
def estimateTransformInput (vs : List (Option α)) : PlaneCalibInput α :=
  vs.foldl
    (fun acc v =>
      match v with
      | some x => { pairs := acc.pairs ++ [x], size := acc.size + 1 }
      | none => acc)
    ⟨[], 0⟩

/-- `Calibration::estimateTransform` as an event: plane-based calibration is
performed on the accumulated pairs. -/
def estimateTransformEvent (vs : List (Option α)) : PEvent α :=
  .planeCalib (estimateTransformInput vs).pairs

/-- The drop loop after the three undistortion phases in
`Calibration::perform`: a view whose depth data has `plane_extracted_` set
receives the estimated plane inliers, otherwise the view pointer is reset to
null. `planes` is index-aligned with `views`. -/
def dropPhase (views : List α) (planes : List (Option γ)) (setInliers : α → γ → α) :
    List (Option α) :=
  (views.zip planes).map (fun vp => vp.2.map (fun pl => setInliers vp.1 pl))

/-- Modelled from the spec: `CheckerboardViewsExtraction::extract` (code of
this repository, not under `src/`) returns zero-or-one checkerboard view for
a frame and keeps it only if the configured checkerboard constraint holds. -/
def extractWithConstraint (rawDetect : Nat → Option α) (valid : α → Bool) (idx : Nat) :
    Option α :=
  (rawDetect idx).bind (fun v => if valid v then some v else none)

/-- `CheckerboardDistanceConstraint::isValid` with its default origin:
the detected checkerboard center is at most `distance` from `from`. The
Euclidean norm is threaded through `sqrt`. -/
def cbDistanceValid (sqrt : ℚ → ℚ) (distance : ℚ) (fromPt center : Pt3) : Bool :=
  sqrt (dot3 (sub3 center fromPt) (sub3 center fromPt)) ≤ distance

/-- The sampling loop of `Calibration::estimateInitialTransform`: while the
frame counter is below the data size and fewer than 10 views are accepted,
draw a random index and attempt a constrained extraction. -/
def eitLoop (dataLen : Nat) (rands : Nat → Nat) (ext : Nat → Option α)
    (i : Nat) (acc : List α) : List α :=
  if _hgo : i < dataLen ∧ acc.length < 10 then
    eitLoop dataLen rands ext (i + 1) (acc ++ (ext (rands i % dataLen)).toList)
  else
    acc
termination_by dataLen - i
decreasing_by omega

/-- `Calibration::estimateInitialTransform`: sample up to 10 constrained
views and hand them to the plane-based transform estimation. -/
def estimateInitialTransform (dataLen : Nat) (rands : Nat → Nat)
    (ext : Nat → Option α) : List α × PEvent α :=
  let vs := eitLoop dataLen rands ext 0 []
  (vs, estimateTransformEvent (vs.map some))

/-- Inputs of one `Calibration::perform` run over abstract views `α` and
planes `γ`. External products (the extracted views, the plane-extraction
outcomes) are oracle fields. -/
structure PerformInput (α γ : Type) where
  estimateInitialTrasform : Bool
  hasParent : Bool
  estimateDepthUndModel : Bool
  dataLen : Nat
  rands : Nat → Nat
  extractOne : Nat → Option α
  preViews : List α
  extracted : List α
  planes : List (Option γ)
  setInliers : α → γ → α

/-- The head of `Calibration::perform`: the bootstrap runs when requested or
when no extrinsic pose is present (`not color_sensor_->parent()`). -/
def performInitTrace (inp : PerformInput α γ) : List (PEvent α) :=
  if inp.estimateInitialTrasform || !inp.hasParent then
    [(estimateInitialTransform inp.dataLen inp.rands inp.extractOne).2]
  else
    []

/-- `Calibration::perform`: run the initial-transform bootstrap when needed;
when undistortion estimation is requested, extract all views, run the three
model-estimation phases, drop the views without an extracted plane, and
finally run `estimateTransform` on the current view vector. Returns the
final view vector and the event trace. -/
def perform (inp : PerformInput α γ) : List (Option α) × List (PEvent α) :=
  let initEvs : List (PEvent α) := performInitTrace inp
  if inp.estimateDepthUndModel then
    let allViews := inp.preViews ++ inp.extracted
    let dropped := dropPhase allViews inp.planes inp.setInliers
    (dropped,
      initEvs ++
        [.extractAll, .estimateLocalModel, .estimateLocalModelReverse,
          .estimateGlobalModel, estimateTransformEvent dropped])
  else
    (inp.preViews.map some,
      initEvs ++ [estimateTransformEvent (inp.preViews.map some)])

/-- One iteration of the copy loop of `Calibration::optimize`: a null view
is skipped (`continue`), a non-null view `v` at index `i` appends its
undistorted working copy `mkUnd i v`. -/
def optimizeCopyStep (mkUnd : Nat → α → β) (acc : List β) (iv : Nat × Option α) :
    List β :=
  match iv.2 with
  | some v => acc ++ [mkUnd iv.1 v]
  | none => acc

/-- The copy loop of `Calibration::optimize` when undistortion estimation
was requested. -/
def optimizeCopies (vs : List (Option α)) (mkUnd : Nat → α → β) : List β :=
  vs.enum.foldl (optimizeCopyStep mkUnd) []

/-- Number of non-null entries of a view vector. -/
def countSome (vs : List (Option α)) : Nat := (vs.filterMap id).length

/-! ## `TransformError` and `Calibration::optimizeTransform` -/

/-- The transcendental functions evaluated on the templated scalar `T` by the
residual functors; threaded as parameters of the embedding. -/
structure TrigOps where
  sqrt : ℚ → ℚ
  cos : ℚ → ℚ
  sin : ℚ → ℚ

/-- A 6-vector parameter block: angle-axis rotation in entries 0..2,
translation in entries 3..5. -/
abbrev Vec6 : Type := Fin 6 → ℚ

/-- Rotation of a point by the angle-axis vector `v` (Rodrigues formula, the
effect of Eigen `AngleAxis(v.norm(), v.normalized())`). -/
def aaRotate (ops : TrigOps) (v p : Pt3) : Pt3 :=
  let angle := ops.sqrt (dot3 v v)
  let axis := smul3 angle⁻¹ v
  add3 (add3 (smul3 (ops.cos angle) p) (smul3 (ops.sin angle) (cross3 axis p)))
    (smul3 ((1 - ops.cos angle) * dot3 axis p) axis)

/-- Application of the rigid transform `translation * rotation` built by
`TransformError::operator()` from a 6-vector parameter block. -/
def aaTransformPt (ops : TrigOps) (pose : Vec6) (p : Pt3) : Pt3 :=
  add3 (aaRotate ops (pose 0, pose 1, pose 2) p) (pose 3, pose 4, pose 5)

/-- A plane as stored by the depth view: normal and offset. -/
structure PlaneQ where
  normal : Pt3
  offset : ℚ

/-- Eigen `Hyperplane::absDistance`: absolute signed distance
`|n · p + d|`. -/
def planeAbsDist (pl : PlaneQ) (p : Pt3) : ℚ := |dot3 pl.normal p + pl.offset|

/-- The per-view data read by `Calibration::optimizeTransform`: the
checkerboard corners in board coordinates, the detected image corners, the
depth-fitted plane, and the checkerboard pose detected in the color frame
(as a 6-vector, the initial value of the per-view parameter block). -/
structure TView where
  corners : List Pt3
  imgCorners : List Pt2
  depthPlane : PlaneQ
  cbPose : Vec6

/-- `TransformError::operator()`: transform the board corners by the
candidate checkerboard pose, reproject them, transform them further by the
candidate color-sensor pose, and interleave a reprojection residual and a
plane-distance residual per corner. -/
def transformErrorResiduals (ops : TrigOps) (proj : Pt3 → Pt2) (defc : List ℚ)
    (v : TView) (colorPose cbPose : Vec6) : List ℚ :=
  let cbCorners := v.corners.map (fun c => aaTransformPt ops cbPose c)
  let reprojected := cbCorners.map proj
  let cbCornersDepth := cbCorners.map (fun c => aaTransformPt ops colorPose c)
  (List.range v.corners.length).flatMap
    (fun i =>
      [norm2 ops.sqrt (sub2 (reprojected.getD i (0, 0)) (v.imgCorners.getD i (0, 0))) / 0.5,
        planeAbsDist v.depthPlane (cbCornersDepth.getD i (0, 0, 0)) /
          polyEval defc (zOf (cbCornersDepth.getD i (0, 0, 0)))])

/-- Linear solver selector of `ceres::Solver::Options`. -/
inductive LinearSolverType where
  | SPARSE_SCHUR
  | SPARSE_NORMAL_CHOLESKY
  deriving DecidableEq

/-- The solver options fixed by the code. -/
structure SolverOptions where
  linearSolverType : LinearSolverType
  maxNumIterations : Nat
  deriving DecidableEq

/-- Loss function attached to a residual block. -/
inductive LossKind where
  | trivial
  | cauchy (scale : ℚ)
  deriving DecidableEq

/-- One residual block of a ceres problem: its residual count, parameter
block sizes, loss, and the residual function restricted to the two pose
blocks it depends on. -/
structure ResidualBlockDesc where
  numResiduals : Nat
  paramSizes : List Nat
  loss : LossKind
  residual : Vec6 → Vec6 → List ℚ

/-- The problem built by `Calibration::optimizeTransform`: one
`TransformError` block per view, with `2 * checkerboard size` residuals over
the shared 6-vector transform block and the view's own 6-vector pose block,
under a Cauchy loss of scale 1. -/
def optimizeTransformProblem (ops : TrigOps) (proj : Pt3 → Pt2) (defc : List ℚ)
    (views : List TView) : List ResidualBlockDesc :=
  views.map
    (fun v =>
      { numResiduals := 2 * v.corners.length
        paramSizes := [6, 6]
        loss := .cauchy 1
        residual := fun transform pose => transformErrorResiduals ops proj defc v transform pose })

/-- Solver options set by `Calibration::optimizeTransform`. -/
def optimizeTransformOptions : SolverOptions :=
  { linearSolverType := .SPARSE_SCHUR, maxNumIterations := 100 }

/-! ## The `Calibration` object state -/

/-- The fields of the `Calibration` object that the claims observe. Model
and matrix payloads are abstract coefficient lists; `none` means the
corresponding pointer was never set. -/
structure CalibrationState where
  colorPoseAA : Pt3
  colorPoseT : Pt3
  depthErrorCoeffs : List ℚ
  depthIntrinsics : List ℚ
  ratio : Int
  localModel : Option (List ℚ)
  globalModel : Option (List ℚ)
  localMatrix : Option (List ℚ)
  globalMatrix : Option (List ℚ)
  estimateDepthUndModel : Bool
  undistortionEstimationReady : Bool

/-- `Calibration::setDownSampleRatio`: `assert(ratio > 0)` then store the
ratio. A failed assertion aborts the run, embedded as `none`. -/
def setDownSampleRatio (s : CalibrationState) (ratio : Int) : Option CalibrationState :=
  if ratio > 0 then some { s with ratio := ratio } else none

/-- `Calibration::setLocalModel`: stores the model and builds the local
matrix from it. -/
def setLocalModel (s : CalibrationState) (m : List ℚ) : CalibrationState :=
  { s with localModel := some m, localMatrix := some m }

/-- `Calibration::setGlobalModel`: stores the model and builds the global
matrix from it. -/
def setGlobalModel (s : CalibrationState) (m : List ℚ) : CalibrationState :=
  { s with globalModel := some m, globalMatrix := some m }

/-- `Calibration::initDepthUndistortionModel`:
`assert(local_matrix_ and global_matrix_)`, then request undistortion
estimation and construct the estimator. -/
def initDepthUndistortionModel (s : CalibrationState) : Option CalibrationState :=
  if s.localMatrix.isSome && s.globalMatrix.isSome then
    some { s with estimateDepthUndModel := true, undistortionEstimationReady := true }
  else
    none

/-- `Calibration::optimizeTransform` as a state transformer. The ceres solve
is an oracle: `solvedTransform` is the content of the shared `transform`
block after `ceres::Solve`, `solvedData` the content of the local per-view
`data` matrix. The code writes the refined transform back into the color
sensor pose and discards `data`; views are only read. Returns the new state,
the view vector after the call, and the problem that was solved. -/
def optimizeTransformRun (ops : TrigOps) (proj : Pt3 → Pt2) (s : CalibrationState)
    (views : List TView) (solvedTransform : Vec6) (_solvedData : Nat → Vec6) :
    CalibrationState × List TView × List ResidualBlockDesc :=
  ({ s with
      colorPoseAA := (solvedTransform 0, solvedTransform 1, solvedTransform 2)
      colorPoseT := (solvedTransform 3, solvedTransform 4, solvedTransform 5) },
    views,
    optimizeTransformProblem ops proj s.depthErrorCoeffs views)

/-! ## `ReprojectionError` (full mode) -/

/-- Eigen quaternion rotation `q * v` (coefficients `(w, x, y, z)`):
`uv = 2 qv × v`, result `v + w uv + qv × uv`. -/
def quatRotate (q : ℚ × ℚ × ℚ × ℚ) (v : Pt3) : Pt3 :=
  let qv : Pt3 := (q.2.1, q.2.2.1, q.2.2.2)
  let uv := smul3 2 (cross3 qv v)
  add3 (add3 v (smul3 q.1 uv)) (cross3 qv uv)

/-- `ReprojectionError::toEigen` applied to a point: rotate by the
quaternion block, then translate. -/
def quatTransformPt (q : ℚ × ℚ × ℚ × ℚ) (t : Pt3) (p : Pt3) : Pt3 :=
  add3 (quatRotate q p) t

/-- `ReprojectionError::operator()`: transform the board corners by the
candidate checkerboard pose, reproject each, and return the componentwise
difference to the detected corners divided by
`0.5 * sqrt(corner count)`. -/
def reprojectionErrorResiduals (sqrt : ℚ → ℚ) (proj : Pt3 → Pt2)
    (corners : List Pt3) (imgCorners : List Pt2)
    (q : ℚ × ℚ × ℚ × ℚ) (t : Pt3) : List Pt2 :=
  let cbCorners := corners.map (fun c => quatTransformPt q t c)
  let reprojected := cbCorners.map proj
  (reprojected.zip imgCorners).map
    (fun rm =>
      ((rm.1.1 - rm.2.1) / (0.5 * sqrt ((corners.length : ℚ))),
        (rm.1.2 - rm.2.2) / (0.5 * sqrt ((corners.length : ℚ)))))

/-! ## `Calibration::optimizeAll` post-solve write-back -/

/-- State observed by the post-solve section of `optimizeAll`, generic in
the number `SIZE` of coefficients of a global polynomial: the color pose as
quaternion plus translation, the four grid cells of the global model, and
the four stored depth intrinsics `fx, fy, cx, cy`. -/
structure FullModeState (SIZE : Nat) where
  colorPoseQ : ℚ × ℚ × ℚ × ℚ
  colorPoseT : Pt3
  p00 : Fin SIZE → ℚ
  p01 : Fin SIZE → ℚ
  p10 : Fin SIZE → ℚ
  p11 : Fin SIZE → ℚ
  depthIntrinsics : Fin 4 → ℚ

/-- Evaluation of a `Polynomial<T, DEGREE, MIN_DEGREE>` with coefficient
vector `c`: the sum of `c j * x ^ (MIN_DEGREE + j)`. -/
def polyEvalGM {SIZE : Nat} (minDeg : Nat) (c : Fin SIZE → ℚ) (x : ℚ) : ℚ :=
  Finset.univ.sum (fun j : Fin SIZE => c j * x ^ (minDeg + (j : Nat)))

/-- The matrix `A` built by `optimizeAll` for the boundary-continuity
system: row `i` holds the powers `x ^ (MIN_DEGREE + j)` at the sample point
`x = i + 1`. -/
def contA (SIZE minDeg : Nat) : Matrix (Fin SIZE) (Fin SIZE) ℚ :=
  fun i j => ((i : Nat) + 1 : ℚ) ^ (minDeg + (j : Nat))

/-- The right-hand side `b` of the boundary-continuity system:
`p01(x) + p10(x) - p00(x)` at the sample points. -/
def contB {SIZE : Nat} (minDeg : Nat) (g00 g01 g10 : Fin SIZE → ℚ) : Fin SIZE → ℚ :=
  fun i =>
    polyEvalGM minDeg g01 ((i : Nat) + 1) + polyEvalGM minDeg g10 ((i : Nat) + 1) -
      polyEvalGM minDeg g00 ((i : Nat) + 1)

/-- The exact solve `A.colPivHouseholderQr().solve(b)` of the
boundary-continuity system (exact on an invertible `A`), via Cramer. -/
def solveCell11 {SIZE : Nat} (minDeg : Nat) (g00 g01 g10 : Fin SIZE → ℚ) : Fin SIZE → ℚ :=
  ((contA SIZE minDeg).det)⁻¹ • (contA SIZE minDeg).cramer (contB minDeg g00 g01 g10)

/-- The write-back section of `Calibration::optimizeAll` after
`ceres::Solve` returns: `transform` is the refined 7-vector block
(quaternion then translation), `delta` the learned 4-parameter intrinsics
correction, and `g00, g01, g10` the three fitted global cells. The color
pose is set from `transform`, cell (1,1) is solved from the other three, and
the stored intrinsics are updated multiplicatively on the focal lengths and
additively on the principal point. -/
def optimizeAllPost {SIZE : Nat} (minDeg : Nat) (s : FullModeState SIZE)
    (transform : Fin 7 → ℚ) (delta : Fin 4 → ℚ) (g00 g01 g10 : Fin SIZE → ℚ) :
    FullModeState SIZE :=
  { colorPoseQ := (transform 0, transform 1, transform 2, transform 3)
    colorPoseT := (transform 4, transform 5, transform 6)
    p00 := g00
    p01 := g01
    p10 := g10
    p11 := solveCell11 minDeg g00 g01 g10
    depthIntrinsics := fun i =>
      match i with
      | 0 => s.depthIntrinsics 0 * delta 0
      | 1 => s.depthIntrinsics 1 * delta 1
      | 2 => s.depthIntrinsics 2 + delta 2
      | 3 => s.depthIntrinsics 3 + delta 3 }

/-- Solver options set by `Calibration::optimizeAll`. -/
def optimizeAllOptions : SolverOptions :=
  { linearSolverType := .SPARSE_NORMAL_CHOLESKY, maxNumIterations := 20 }

/-! ## Concrete instances

Closed inputs used to evaluate the definitions above on concrete data. -/

/-- A concrete 2 × 2 organized cloud with two finite and two non-finite
points. -/
def exCloud2 : PCLCloud :=
  { width := 2
    height := 2
    points := [some ((1 : ℚ), (1 : ℚ), (1 : ℚ)), some ((3 : ℚ), (3 : ℚ), (3 : ℚ)), none, none]
    isDense := true }

/-- A concrete 5 × 5 organized cloud whose dimensions are not divisible by
the ratio 2. -/
def exCloud5 : PCLCloud :=
  { width := 5
    height := 5
    points := List.replicate 25 (none : Option Pt3)
    isDense := true }

/-- A concrete `perform` input with undistortion-model estimation requested:
two extracted views, the second of which loses its plane. -/
def performExample : PerformInput Nat Nat :=
  { estimateInitialTrasform := false
    hasParent := true
    estimateDepthUndModel := true
    dataLen := 0
    rands := fun _ => 0
    extractOne := fun _ => none
    preViews := []
    extracted := [7, 8]
    planes := [some 0, none]
    setInliers := fun v _ => v }

/-- A concrete calibration state whose model matrices were never set. -/
def exCalibState : CalibrationState :=
  { colorPoseAA := ((0 : ℚ), (0 : ℚ), (0 : ℚ))
    colorPoseT := ((0 : ℚ), (0 : ℚ), (0 : ℚ))
    depthErrorCoeffs := []
    depthIntrinsics := []
    ratio := 1
    localModel := none
    globalModel := none
    localMatrix := none
    globalMatrix := none
    estimateDepthUndModel := false
    undistortionEstimationReady := false }

/-- Transcendental parameters used on concrete inputs. -/
def exOps : TrigOps :=
  { sqrt := ratSqrt, cos := fun _ => 1, sin := fun _ => 0 }

/-- A trivial concrete camera projection. -/
def exProj : Pt3 → Pt2 := fun p => (p.1, p.2.1)

/-- A concrete one-corner view. -/
def exTView : TView :=
  { corners := [((0 : ℚ), (0 : ℚ), (0 : ℚ))]
    imgCorners := [((0 : ℚ), (0 : ℚ))]
    depthPlane := { normal := ((0 : ℚ), (0 : ℚ), (1 : ℚ)), offset := 0 }
    cbPose := fun _ => 0 }

/-- A concrete square root valid at 4, the only value it is applied to in
the concrete reprojection computations. -/
def exSqrtC5 : ℚ → ℚ := fun q => if q = 4 then 2 else 0

/-- Four concrete checkerboard corners. -/
def exCorners4 : List Pt3 :=
  [((0 : ℚ), (0 : ℚ), (0 : ℚ)), ((1 : ℚ), (0 : ℚ), (0 : ℚ)),
    ((0 : ℚ), (1 : ℚ), (0 : ℚ)), ((1 : ℚ), (1 : ℚ), (0 : ℚ))]

/-- Four concrete detected image corners. -/
def exImg4 : List Pt2 :=
  [((0 : ℚ), (0 : ℚ)), ((1 : ℚ), (0 : ℚ)), ((0 : ℚ), (1 : ℚ)), ((1 : ℚ), (1 : ℚ))]

/-- A concrete camera projection shifted by one pixel, so the first
reprojection residual is nonzero. -/
def exProjShift : Pt3 → Pt2 := fun p => (p.1 + 1, p.2.1)

/-- A concrete full-mode state. -/
def exFullState : FullModeState 3 :=
  { colorPoseQ := ((1 : ℚ), (0 : ℚ), (0 : ℚ), (0 : ℚ))
    colorPoseT := ((0 : ℚ), (0 : ℚ), (0 : ℚ))
    p00 := fun _ => 0
    p01 := fun _ => 0
    p10 := fun _ => 0
    p11 := fun _ => 0
    depthIntrinsics := fun _ => 1 }

/-- A concrete solved global cell. -/
def exG3 : Fin 3 → ℚ := fun _ => 1

/-- A concrete solved transform block. -/
def exT7 : Fin 7 → ℚ := fun _ => 0

/-- A concrete learned intrinsics delta. -/
def exD4 : Fin 4 → ℚ := fun _ => 1

/-! ## Lemmas on down-sampling -/

theorem accumStep_foldl (f : Nat × Nat → Option Pt3) (l : List (Nat × Nat))
    (s0 : Pt3) (n0 : Nat) :
    l.foldl (accumStep f) (s0, n0) =
      ((l.filterMap f).foldl add3 s0, n0 + (l.filterMap f).length) := by
  induction l generalizing s0 n0 with
  | nil => simp
  | cons d t ih =>
    cases hf : f d with
    | none => simp [accumStep, hf, ih, List.filterMap_cons]
    | some p =>
      simp [accumStep, hf, ih, List.filterMap_cons]
      omega

theorem blockAccum_eq (c : PCLCloud) (r j i : Nat) :
    blockAccum c r j i =
      (sumPts (blockFinites c r j i), (blockFinites c r j i).length) := by
  unfold blockAccum blockFinites sumPts
  rw [accumStep_foldl]
  simp

theorem downPoint_eq (c : PCLCloud) (r j i : Nat) :
    downPoint c r j i =
      if (blockFinites c r j i).length > 0 then
        some (smul3 (((blockFinites c r j i).length : ℚ))⁻¹ (sumPts (blockFinites c r j i)))
      else none := by
  unfold downPoint
  rw [blockAccum_eq]

theorem writeCell_foldl_length (c : PCLCloud) (r w : Nat) (l : List (Nat × Nat))
    (init : List (Option Pt3)) :
    (l.foldl (writeCell c r w) init).length = init.length := by
  induction l generalizing init with
  | nil => rfl
  | cons a t ih => rw [List.foldl_cons, ih, writeCell, List.length_set]

theorem writeCell_foldl_not_mem (c : PCLCloud) (r w : Nat) (l : List (Nat × Nat))
    (init : List (Option Pt3)) (m : Nat)
    (hm : ∀ cell ∈ l, cell.1 * w + cell.2 ≠ m) :
    (l.foldl (writeCell c r w) init)[m]? = init[m]? := by
  induction l generalizing init with
  | nil => rfl
  | cons a t ih =>
    rw [List.foldl_cons, ih _ (fun cell hc => hm cell (List.mem_cons_of_mem a hc))]
    exact List.getElem?_set_ne (hm a (List.mem_cons_self a t))

theorem writeCell_foldl_mem (c : PCLCloud) (r w : Nat) (cell0 : Nat × Nat) :
    ∀ (l : List (Nat × Nat)) (init : List (Option Pt3)) (m : Nat),
      cell0 ∈ l → cell0.1 * w + cell0.2 = m → m < init.length →
      (∀ cell ∈ l, cell.1 * w + cell.2 = m → cell = cell0) →
      (l.foldl (writeCell c r w) init)[m]? =
        some (downPoint c r cell0.2 cell0.1) := by
  intro l
  induction l with
  | nil =>
    intro init m hmem
    simp at hmem
  | cons a t ih =>
    intro init m hmem hcell hlen huniq
    rw [List.foldl_cons]
    by_cases hc : cell0 ∈ t
    · exact ih _ m hc hcell
        (by rw [writeCell, List.length_set]; exact hlen)
        (fun cell hct he => huniq cell (List.mem_cons_of_mem a hct) he)
    · have ha : a = cell0 := by
        rcases List.mem_cons.mp hmem with he | ht
        · exact he.symm
        · exact absurd ht hc
      subst ha
      rw [writeCell_foldl_not_mem c r w t _ m
        (fun cell hct he => absurd (huniq cell (List.mem_cons_of_mem a hct) he ▸ hct) hc)]
      unfold writeCell
      rw [hcell]
      exact List.getElem?_set_eq_of_lt _ hlen

theorem downsampleStep_foldl (c : PCLCloud) (r w : Nat) (l : List (Nat × Nat))
    (init : List (Option Pt3)) (b : Bool) :
    l.foldl (downsampleStep c r w) (init, b) =
      (l.foldl (writeCell c r w) init,
        b && l.all (fun cell => (downPoint c r cell.2 cell.1).isSome)) := by
  induction l generalizing init b with
  | nil => simp
  | cons a t ih => simp [downsampleStep, ih, List.all_cons, Bool.and_assoc]

theorem downsample_points_def (c : PCLCloud) (r : Nat) :
    (downsample c r).points =
      (cellList (c.width / r) (c.height / r)).foldl (writeCell c r (c.width / r))
        (List.replicate (c.points.length / (r * r))
          (some ((0 : ℚ), (0 : ℚ), (0 : ℚ)))) := by
  simp only [downsample, downsampleStep_foldl]

theorem downsample_isDense_def (c : PCLCloud) (r : Nat) :
    (downsample c r).isDense =
      (c.isDense &&
        (cellList (c.width / r) (c.height / r)).all
          (fun cell => (downPoint c r cell.2 cell.1).isSome)) := by
  simp only [downsample, downsampleStep_foldl]

theorem mem_cellList (w h : Nat) (cell : Nat × Nat) :
    cell ∈ cellList w h ↔ cell.1 < h ∧ cell.2 < w := by
  rcases cell with ⟨i, j⟩
  unfold cellList
  simp only [List.mem_flatMap, List.mem_map, List.mem_range, Prod.mk.injEq]
  constructor
  · rintro ⟨a, ha, b, hb, rfl, rfl⟩
    exact ⟨ha, hb⟩
  · rintro ⟨hi, hj⟩
    exact ⟨i, hi, j, hj, rfl, rfl⟩

theorem mem_blockOffsets (r : Nat) (d : Nat × Nat) :
    d ∈ blockOffsets r ↔ d.1 < r ∧ d.2 < r := by
  rcases d with ⟨a, b⟩
  unfold blockOffsets
  simp only [List.mem_flatMap, List.mem_map, List.mem_range, Prod.mk.injEq]
  constructor
  · rintro ⟨x, hx, y, hy, rfl, rfl⟩
    exact ⟨hx, hy⟩
  · rintro ⟨ha, hb⟩
    exact ⟨a, ha, b, hb, rfl, rfl⟩

theorem cell_index_inj (w a b i j : Nat) (hb : b < w) (hj : j < w)
    (he : a * w + b = i * w + j) : a = i ∧ b = j := by
  have hw : 0 < w := Nat.lt_of_le_of_lt (Nat.zero_le j) hj
  have hdiv : ∀ x y : Nat, y < w → (x * w + y) / w = x := by
    intro x y hy
    rw [Nat.add_comm, Nat.mul_comm, Nat.add_mul_div_left _ _ hw,
      Nat.div_eq_of_lt hy, Nat.zero_add]
  have hai : a = i := by
    have h1 := hdiv a b hb
    have h2 := hdiv i j hj
    rw [he] at h1
    rw [h1] at h2
    omega
  subst hai
  exact ⟨rfl, Nat.add_left_cancel he⟩

theorem index_lt_quot (c : PCLCloud) (r i j : Nat) (hr : 0 < r)
    (horg : c.points.length = c.width * c.height)
    (hi : i < c.height / r) (hj : j < c.width / r) :
    i * (c.width / r) + j < c.points.length / (r * r) := by
  have h1 : i * (c.width / r) + j < (c.height / r) * (c.width / r) := by
    calc i * (c.width / r) + j < i * (c.width / r) + (c.width / r) := by omega
      _ = (i + 1) * (c.width / r) := by ring
      _ ≤ (c.height / r) * (c.width / r) := Nat.mul_le_mul_right _ hi
  have h2 : (c.height / r) * (c.width / r) * (r * r) ≤ c.width * c.height := by
    calc (c.height / r) * (c.width / r) * (r * r)
        = ((c.width / r) * r) * ((c.height / r) * r) := by ring
      _ ≤ c.width * c.height :=
          Nat.mul_le_mul (Nat.div_mul_le_self _ _) (Nat.div_mul_le_self _ _)
  have h3 : (c.height / r) * (c.width / r) ≤ c.points.length / (r * r) := by
    rw [horg]
    exact (Nat.le_div_iff_mul_le (Nat.mul_pos hr hr)).mpr h2
  omega

theorem downsample_atP (c : PCLCloud) (r i j : Nat) (hi : i < c.height / r)
    (hj : j < c.width / r)
    (hlen : i * (c.width / r) + j < c.points.length / (r * r)) :
    (downsample c r).atP j i = downPoint c r j i := by
  have hget : (downsample c r).points[i * (c.width / r) + j]? =
      some (downPoint c r j i) := by
    rw [downsample_points_def]
    exact writeCell_foldl_mem c r (c.width / r) (i, j) _ _ _
      ((mem_cellList _ _ (i, j)).mpr ⟨hi, hj⟩) rfl
      (by rw [List.length_replicate]; exact hlen)
      (fun cell hcell he => by
        have hb := ((mem_cellList _ _ cell).mp hcell).2
        have hij := cell_index_inj (c.width / r) cell.1 cell.2 i j hb hj he
        exact Prod.ext hij.1 hij.2)
  show (downsample c r).points.getD (i * (downsample c r).width + j) none =
    downPoint c r j i
  have hw : (downsample c r).width = c.width / r := rfl
  rw [hw, List.getD_eq_getElem?_getD, hget]
  rfl

theorem all_ext {α : Type} (p q : α → Bool) (l : List α) (h : ∀ x ∈ l, p x = q x) :
    l.all p = l.all q := by
  induction l with
  | nil => rfl
  | cons a t ih =>
    simp only [List.all_cons, h a (List.mem_cons_self a t),
      ih (fun x hx => h x (List.mem_cons_of_mem a hx))]

theorem downsample_isDense_false (c : PCLCloud) (r i j : Nat)
    (hi : i < c.height / r) (hj : j < c.width / r)
    (hempty : blockFinites c r j i = []) : (downsample c r).isDense = false := by
  rw [downsample_isDense_def]
  have hp : (downPoint c r j i).isSome = false := by
    rw [downPoint_eq, hempty]
    rfl
  have hall : (cellList (c.width / r) (c.height / r)).all
      (fun cell => (downPoint c r cell.2 cell.1).isSome) = false := by
    cases hcase : (cellList (c.width / r) (c.height / r)).all
        (fun cell => (downPoint c r cell.2 cell.1).isSome) with
    | false => rfl
    | true =>
      have := List.all_eq_true.mp hcase (i, j) ((mem_cellList _ _ (i, j)).mpr ⟨hi, hj⟩)
      rw [hp] at this
      exact absurd this (by simp)
  rw [hall, Bool.and_false]

theorem downPoint_congr (c d : PCLCloud) (r j i : Nat)
    (hagree : ∀ dd ∈ blockOffsets r,
      d.atP (j * r + dd.2) (i * r + dd.1) = c.atP (j * r + dd.2) (i * r + dd.1)) :
    downPoint d r j i = downPoint c r j i := by
  unfold downPoint blockAccum
  rw [List.foldl_ext (accumStep (blockRead d r j i)) (accumStep (blockRead c r j i)) _
    (fun acc dd hdd => by unfold accumStep blockRead; rw [hagree dd hdd])]

theorem cellBlock_bound (x bound dx r : Nat) (hx : x < bound) (hdx : dx < r) :
    x * r + dx < bound * r := by
  calc x * r + dx < x * r + r := by omega
    _ = (x + 1) * r := by ring
    _ ≤ bound * r := Nat.mul_le_mul_right r hx

theorem downsample_congr (c d : PCLCloud) (r : Nat)
    (hw : d.width = c.width) (hh : d.height = c.height)
    (hl : d.points.length = c.points.length) (hdense : d.isDense = c.isDense)
    (hagree : ∀ jj ii, jj < (c.width / r) * r → ii < (c.height / r) * r →
      d.atP jj ii = c.atP jj ii) :
    downsample d r = downsample c r := by
  have hcell : ∀ cell ∈ cellList (c.width / r) (c.height / r),
      downPoint d r cell.2 cell.1 = downPoint c r cell.2 cell.1 := by
    intro cell hc
    rcases (mem_cellList _ _ cell).mp hc with ⟨h1, h2⟩
    exact downPoint_congr c d r cell.2 cell.1
      (fun dd hdd => by
        rcases (mem_blockOffsets r dd).mp hdd with ⟨hd1, hd2⟩
        exact hagree _ _ (cellBlock_bound cell.2 _ dd.2 r h2 hd2)
          (cellBlock_bound cell.1 _ dd.1 r h1 hd1))
  have hpoints : (downsample d r).points = (downsample c r).points := by
    rw [downsample_points_def, downsample_points_def, hw, hh, hl]
    exact List.foldl_ext _ _ _
      (fun lst cell hc => by unfold writeCell; rw [hcell cell hc])
  have hdense2 : (downsample d r).isDense = (downsample c r).isDense := by
    rw [downsample_isDense_def, downsample_isDense_def, hw, hh, hdense]
    exact congrArg (c.isDense && ·)
      (all_ext _ _ _ (fun cell hc => congrArg Option.isSome (hcell cell hc)))
  have hwidth : (downsample d r).width = (downsample c r).width := by
    show d.width / r = c.width / r
    rw [hw]
  have hheight : (downsample d r).height = (downsample c r).height := by
    show d.height / r = c.height / r
    rw [hh]
  cases hdc : downsample d r
  cases hcc : downsample c r
  rw [hdc, hcc] at hpoints hdense2 hwidth hheight
  simp only at hpoints hdense2 hwidth hheight
  rw [hpoints, hdense2, hwidth, hheight]

/-! ## Lemmas on the orchestration layer -/

theorem estimateTransformInput_foldl {α : Type} (vs : List (Option α)) (acc : PlaneCalibInput α) :
    vs.foldl
        (fun acc v =>
          match v with
          | some x => { pairs := acc.pairs ++ [x], size := acc.size + 1 }
          | none => acc)
        acc =
      ⟨acc.pairs ++ vs.filterMap id, acc.size + (vs.filterMap id).length⟩ := by
  induction vs generalizing acc with
  | nil => simp
  | cons v t ih =>
    cases v with
    | none => simp [ih, List.filterMap_cons]
    | some x =>
      simp [ih, List.filterMap_cons]
      omega

/-- The loop of `estimateTransform` adds exactly the non-null views, in
order, and counts them. -/
theorem estimateTransformInput_eq {α : Type} (vs : List (Option α)) :
    estimateTransformInput vs =
      ⟨vs.filterMap id, (vs.filterMap id).length⟩ := by
  simpa [estimateTransformInput] using estimateTransformInput_foldl vs ⟨[], 0⟩

theorem filterMap_id_map_some {α : Type} (l : List α) :
    (l.map some).filterMap id = l := by
  induction l with
  | nil => rfl
  | cons a t ih => simp [ih]

theorem eitLoop_length_le {α : Type} (dataLen : Nat) (rands : Nat → Nat)
    (ext : Nat → Option α) (i : Nat) (acc : List α) (hacc : acc.length ≤ 10) :
    (eitLoop dataLen rands ext i acc).length ≤ 10 := by
  rw [eitLoop]
  split
  case isTrue h =>
    apply eitLoop_length_le
    cases ext (rands i % dataLen) with
    | none => simpa using hacc
    | some x =>
      simp only [Option.toList, List.length_append, List.length_cons, List.length_nil]
      omega
  case isFalse h => exact hacc
termination_by dataLen - i
decreasing_by omega

theorem eitLoop_all {α : Type} (dataLen : Nat) (rands : Nat → Nat)
    (ext : Nat → Option α) (p : α → Bool)
    (hext : ∀ j x, ext j = some x → p x = true)
    (i : Nat) (acc : List α) (hacc : acc.all p = true) :
    (eitLoop dataLen rands ext i acc).all p = true := by
  rw [eitLoop]
  split
  case isTrue h =>
    apply eitLoop_all dataLen rands ext p hext
    cases hj : ext (rands i % dataLen) with
    | none => simpa using hacc
    | some x =>
      simp only [Option.toList, List.all_append, List.all_cons, List.all_nil,
        Bool.and_true, Bool.and_eq_true]
      exact ⟨hacc, hext _ _ hj⟩
  case isFalse h => exact hacc
termination_by dataLen - i
decreasing_by omega

theorem extractWithConstraint_valid {α : Type} (rawDetect : Nat → Option α)
    (valid : α → Bool) (j : Nat) (x : α)
    (hx : extractWithConstraint rawDetect valid j = some x) : valid x = true := by
  unfold extractWithConstraint at hx
  cases hd : rawDetect j with
  | none => rw [hd] at hx; simp at hx
  | some v =>
    rw [hd] at hx
    by_cases hv : valid v = true
    · simp [hv] at hx
      exact hx ▸ hv
    · simp [Bool.eq_false_iff.mpr hv] at hx

theorem foldl_append_filterMap {γ δ : Type} (g : γ → Option δ) (l : List γ)
    (init : List δ) :
    l.foldl
        (fun acc x =>
          match g x with
          | some y => acc ++ [y]
          | none => acc)
        init =
      init ++ l.filterMap g := by
  induction l generalizing init with
  | nil => simp
  | cons a t ih =>
    cases hg : g a with
    | none => simp [hg, ih, List.filterMap_cons]
    | some y => simp [hg, ih, List.filterMap_cons]

theorem optimizeCopies_foldl {α β : Type} (mkUnd : Nat → α → β)
    (l : List (Nat × Option α)) (init : List β) :
    l.foldl (optimizeCopyStep mkUnd) init =
      init ++ l.filterMap (fun iv => Option.map (mkUnd iv.1) iv.2) := by
  induction l generalizing init with
  | nil => simp
  | cons a t ih =>
    rcases a with ⟨n, v⟩
    cases v with
    | none => simp [optimizeCopyStep, ih, List.filterMap_cons]
    | some x => simp [optimizeCopyStep, ih, List.filterMap_cons]

/-- The copy loop of `optimize` keeps exactly the non-null views. -/
theorem optimizeCopies_eq {α β : Type} (vs : List (Option α)) (mkUnd : Nat → α → β) :
    optimizeCopies vs mkUnd =
      vs.enum.filterMap (fun iv => Option.map (mkUnd iv.1) iv.2) := by
  unfold optimizeCopies
  rw [optimizeCopies_foldl, List.nil_append]

theorem dropPhase_length {α γ : Type} (views : List α) (planes : List (Option γ))
    (setInl : α → γ → α) :
    (dropPhase views planes setInl).length = min views.length planes.length := by
  simp [dropPhase]

theorem dropPhase_get {α γ : Type} (views : List α) (planes : List (Option γ))
    (setInl : α → γ → α) (i : Nat) (h1 : i < views.length) (h2 : i < planes.length)
    (h3 : i < (dropPhase views planes setInl).length) :
    (dropPhase views planes setInl).get ⟨i, h3⟩ =
      (planes.get ⟨i, h2⟩).map (fun pl => setInl (views.get ⟨i, h1⟩) pl) := by
  simp [dropPhase, List.get_eq_getElem, List.getElem_zip]

theorem dropPhase_getElem {α γ : Type} (views : List α) (planes : List (Option γ))
    (setInl : α → γ → α) :
    ∀ (i : Nat) (v : α) (pl : Option γ),
      views[i]? = some v → planes[i]? = some pl →
      (dropPhase views planes setInl)[i]? = some (pl.map (fun p => setInl v p)) := by
  induction views generalizing planes with
  | nil => intro i v pl hv; simp at hv
  | cons a t ih =>
    intro i v pl hv hp
    cases planes with
    | nil => simp at hp
    | cons b tb =>
      cases i with
      | zero =>
        simp only [List.getElem?_cons_zero, Option.some_inj] at hv hp
        subst hv; subst hp
        simp [dropPhase]
      | succ n =>
        simp only [List.getElem?_cons_succ] at hv hp
        simpa [dropPhase] using ih tb n v pl hv hp

/-! ## Claim theorems: down-sampling -/

/-- C2: with ratio `r > 1`, the output point of each cell of the
down-sampled cloud of `addData_` is the componentwise mean of the finite
points of its r × r input block when that block has a finite point, and is
the explicit NaN point with the dense flag cleared when it has none. -/
theorem addData_downsample_mean (c : PCLCloud) (r : Nat) (hr : 1 < r)
    (horg : c.points.length = c.width * c.height)
    (i j : Nat) (hi : i < c.height / r) (hj : j < c.width / r) :
    (blockFinites c r j i ≠ [] →
      (addDataDepth r c).atP j i =
        some (smul3 (((blockFinites c r j i).length : ℚ))⁻¹
          (sumPts (blockFinites c r j i)))) ∧
    (blockFinites c r j i = [] →
      (addDataDepth r c).atP j i = none ∧ (addDataDepth r c).isDense = false) := by
  have hd : addDataDepth r c = downsample c r := by simp [addDataDepth, hr]
  have hlen := index_lt_quot c r i j (by omega) horg hi hj
  constructor
  · intro hne
    rw [hd, downsample_atP c r i j hi hj hlen, downPoint_eq]
    have hpos : (blockFinites c r j i).length > 0 := List.length_pos.mpr hne
    simp [hpos]
  · intro hemp
    rw [hd]
    refine ⟨?_, downsample_isDense_false c r i j hi hj hemp⟩
    rw [downsample_atP c r i j hi hj hlen, downPoint_eq, hemp]
    simp

/-- Witness for C2 at the concrete 2 × 2 cloud with ratio 2: the single
output point is the mean of the two finite input points. -/
theorem addData_downsample_mean_witness :
    ((1 : Nat) < 2 ∧ exCloud2.points.length = exCloud2.width * exCloud2.height ∧
      (0 : Nat) < exCloud2.height / 2 ∧ (0 : Nat) < exCloud2.width / 2 ∧
      blockFinites exCloud2 2 0 0 ≠ []) ∧
    (addDataDepth 2 exCloud2).atP 0 0 =
      some (smul3 (((blockFinites exCloud2 2 0 0).length : ℚ))⁻¹
        (sumPts (blockFinites exCloud2 2 0 0))) ∧
    smul3 (((blockFinites exCloud2 2 0 0).length : ℚ))⁻¹ (sumPts (blockFinites exCloud2 2 0 0)) =
      ((2 : ℚ), (2 : ℚ), (2 : ℚ)) :=
  ⟨⟨by decide, by decide, by decide, by decide, by decide⟩,
    (addData_downsample_mean exCloud2 2 (by decide) (by decide) 0 0 (by decide)
        (by decide)).1 (by decide),
    by
      simp [blockFinites, blockOffsets, blockRead, PCLCloud.atP, exCloud2,
        sumPts, smul3, add3, List.range_succ]
      norm_num⟩

/-- C9: with ratio `r > 1`, the output width and height are the truncating
quotients, the point storage is resized to `size / (r * r)`, only input
pixels inside the `(width / r) * r` by `(height / r) * r` region determine
the output, and on the concrete 5 × 5 cloud with ratio 2 the allocated
storage (6 points) differs from `width * height` (4). -/
theorem addData_downsample_dims (c : PCLCloud) (r : Nat) (hr : 1 < r) :
    (addDataDepth r c).width = c.width / r ∧
    (addDataDepth r c).height = c.height / r ∧
    (addDataDepth r c).points.length = c.points.length / (r * r) ∧
    (∀ d : PCLCloud, d.width = c.width → d.height = c.height →
      d.points.length = c.points.length → d.isDense = c.isDense →
      (∀ jj ii, jj < (c.width / r) * r → ii < (c.height / r) * r →
        d.atP jj ii = c.atP jj ii) →
      addDataDepth r d = addDataDepth r c) ∧
    (addDataDepth 2 exCloud5).points.length ≠
      (addDataDepth 2 exCloud5).width * (addDataDepth 2 exCloud5).height := by
  have hd : ∀ x : PCLCloud, addDataDepth r x = downsample x r := by
    intro x
    simp [addDataDepth, hr]
  refine ⟨by rw [hd]; rfl, by rw [hd]; rfl, ?_, ?_, by decide⟩
  · rw [hd, downsample_points_def, writeCell_foldl_length, List.length_replicate]
  · intro d h1 h2 h3 h4 h5
    rw [hd, hd]
    exact downsample_congr c d r h1 h2 h3 h4 h5

/-- Witness for C9 at the concrete 5 × 5 cloud with ratio 2. -/
theorem addData_downsample_dims_witness :
    (1 : Nat) < 2 ∧
    (addDataDepth 2 exCloud5).width = exCloud5.width / 2 ∧
    (addDataDepth 2 exCloud5).points.length = exCloud5.points.length / (2 * 2) ∧
    addDataDepth 2 exCloud5 = addDataDepth 2 exCloud5 ∧
    (addDataDepth 2 exCloud5).points.length ≠
      (addDataDepth 2 exCloud5).width * (addDataDepth 2 exCloud5).height :=
  ⟨by decide, (addData_downsample_dims exCloud5 2 (by decide)).1,
    (addData_downsample_dims exCloud5 2 (by decide)).2.2.1,
    (addData_downsample_dims exCloud5 2 (by decide)).2.2.2.1 exCloud5 rfl rfl rfl rfl
      (fun jj ii h1 h2 => rfl),
    (addData_downsample_dims exCloud5 2 (by decide)).2.2.2.2⟩

/-! ## Claim theorems: orchestration -/

/-- C1 counterexample: with undistortion estimation requested, the trace of
`perform` contains no run of the transform-only optimizer
(`optimizeTransform`); the final step is the plane-based transform
estimation (`estimateTransform`, the `PlaneBasedExtrinsicCalibration` of
section 4.1), contradicting the claim that the section 4.3 transform-only
optimizer is run. -/
theorem perform_no_transform_optimizer :
    ((perform performExample).2.map PEvent.isOptimizeTransform).all (fun b => !b) = true ∧
    (perform performExample).2 =
      [PEvent.extractAll, PEvent.estimateLocalModel, PEvent.estimateLocalModelReverse,
        PEvent.estimateGlobalModel, PEvent.planeCalib [7]] := by
  exact ⟨rfl, rfl⟩

/-- C1 (amended): with undistortion estimation requested, `perform` extracts
the views, runs the three undistortion phases in order, resets to null every
view whose plane was not extracted, and then runs the plane-based transform
estimation (`estimateTransform`, section 4.1's plane-correspondence
alignment — not the section 4.3 transform-only optimizer) on the surviving
views; without undistortion estimation it runs the plane-based transform
estimation directly. -/
theorem perform_pipeline {α γ : Type} (inp : PerformInput α γ) :
    (inp.estimateDepthUndModel = true →
      (perform inp).2 =
        performInitTrace inp ++
          [PEvent.extractAll, PEvent.estimateLocalModel,
            PEvent.estimateLocalModelReverse, PEvent.estimateGlobalModel,
            PEvent.planeCalib ((perform inp).1.filterMap id)] ∧
      (perform inp).1 =
        dropPhase (inp.preViews ++ inp.extracted) inp.planes inp.setInliers ∧
      (∀ (i : Nat) (v : α) (pl : Option γ),
        (inp.preViews ++ inp.extracted)[i]? = some v → inp.planes[i]? = some pl →
        (perform inp).1[i]? = some (pl.map (fun p => inp.setInliers v p)))) ∧
    (inp.estimateDepthUndModel = false →
      (perform inp).2 = performInitTrace inp ++ [PEvent.planeCalib inp.preViews]) := by
  constructor
  · intro hflag
    have h1 : (perform inp).1 =
        dropPhase (inp.preViews ++ inp.extracted) inp.planes inp.setInliers := by
      simp [perform, hflag]
    refine ⟨?_, h1, ?_⟩
    · simp [perform, hflag, estimateTransformEvent, estimateTransformInput_eq]
    · intro i v pl hv hp
      rw [h1]
      exact dropPhase_getElem _ _ _ i v pl hv hp
  · intro hflag
    simp [perform, hflag, estimateTransformEvent, estimateTransformInput_eq,
      filterMap_id_map_some]

/-- Witness for C1 at `performExample`: the pipeline trace is produced and
the view without an extracted plane is set to null. -/
theorem perform_pipeline_witness :
    performExample.estimateDepthUndModel = true ∧
    (perform performExample).2 =
      performInitTrace performExample ++
        [PEvent.extractAll, PEvent.estimateLocalModel,
          PEvent.estimateLocalModelReverse, PEvent.estimateGlobalModel,
          PEvent.planeCalib ((perform performExample).1.filterMap id)] ∧
    (performExample.preViews ++ performExample.extracted)[1]? = some 8 ∧
    performExample.planes[1]? = some none ∧
    (perform performExample).1[1]? = some none :=
  ⟨rfl, ((perform_pipeline performExample).1 rfl).1, rfl, rfl,
    ((perform_pipeline performExample).1 rfl).2.2 1 8 none rfl rfl⟩

/-- C6: `estimateInitialTransform` never accepts more than ten views, every
accepted view satisfies the code's `CheckerboardDistanceConstraint` with
distance 2 about the origin, frames are drawn by index `rands i % dataLen`
from an arbitrary random stream, and the accepted views are handed to the
plane-based transform estimation. -/
theorem estimateInitialTransform_contract {α : Type} (dataLen : Nat)
    (rands : Nat → Nat) (rawDetect : Nat → Option α) (sqrt : ℚ → ℚ)
    (center : α → Pt3) :
    let valid : α → Bool :=
      fun v => cbDistanceValid sqrt 2 ((0 : ℚ), (0 : ℚ), (0 : ℚ)) (center v)
    let res := estimateInitialTransform dataLen rands (extractWithConstraint rawDetect valid)
    res.1.length ≤ 10 ∧ res.1.all valid = true ∧ res.2 = PEvent.planeCalib res.1 := by
  intro valid res
  refine ⟨?_, ?_, ?_⟩
  · exact eitLoop_length_le dataLen rands _ 0 [] (by simp)
  · exact eitLoop_all dataLen rands _ valid
      (fun j x hx => extractWithConstraint_valid rawDetect valid j x hx) 0 [] (by simp)
  · show estimateTransformEvent (res.1.map some) = PEvent.planeCalib res.1
    simp [estimateTransformEvent, estimateTransformInput_eq, filterMap_id_map_some]

/-- C7: the drop phase never increases the number of non-null views, the
plane-based transform estimation of `estimateTransform` uses exactly the
non-null entries, and the copy loop of `optimize` skips every null entry. -/
theorem view_exclusion_invariant {α β γ : Type} (views : List α)
    (planes : List (Option γ)) (setInl : α → γ → α) (vs : List (Option α))
    (mkUnd : Nat → α → β) :
    countSome (dropPhase views planes setInl) ≤ countSome (views.map some) ∧
    (estimateTransformInput vs).pairs = vs.filterMap id ∧
    (estimateTransformInput vs).size = (vs.filterMap id).length ∧
    optimizeCopies vs mkUnd =
      vs.enum.filterMap (fun iv => Option.map (mkUnd iv.1) iv.2) := by
  refine ⟨?_, ?_, ?_, optimizeCopies_eq vs mkUnd⟩
  · calc countSome (dropPhase views planes setInl)
        ≤ (dropPhase views planes setInl).length := List.length_filterMap_le _ _
      _ ≤ views.length := by rw [dropPhase_length]; omega
      _ = countSome (views.map some) := by
          simp [countSome, filterMap_id_map_some]
  · rw [estimateTransformInput_eq]
  · rw [estimateTransformInput_eq]

/-- C8: `setDownSampleRatio` rejects every non-positive ratio and accepts
every ratio at least 1; `initDepthUndistortionModel` fails its precondition
when the local or the global model was not set beforehand. -/
theorem precondition_contracts (s : CalibrationState) (ratio : Int) :
    (ratio ≤ 0 → setDownSampleRatio s ratio = none) ∧
    (1 ≤ ratio → (setDownSampleRatio s ratio).isSome = true) ∧
    (s.localMatrix = none ∨ s.globalMatrix = none →
      initDepthUndistortionModel s = none) := by
  refine ⟨?_, ?_, ?_⟩
  · intro hr
    simp [setDownSampleRatio]
    omega
  · intro hr
    simp [setDownSampleRatio]
    omega
  · intro hm
    rcases hm with hm | hm <;> simp [initDepthUndistortionModel, hm]

/-- Witness for C8 at ratios 0 and 1 and at a state without models. -/
theorem precondition_contracts_witness :
    ((0 : Int) ≤ 0 ∧ setDownSampleRatio exCalibState 0 = none) ∧
    ((1 : Int) ≤ 1 ∧ (setDownSampleRatio exCalibState 1).isSome = true) ∧
    (exCalibState.localMatrix = none ∧ initDepthUndistortionModel exCalibState = none) :=
  ⟨⟨by decide, (precondition_contracts exCalibState 0).1 (by decide)⟩,
    ⟨by decide, (precondition_contracts exCalibState 1).2.1 (by decide)⟩,
    ⟨rfl, (precondition_contracts exCalibState 0).2.2 (Or.inl rfl)⟩⟩

theorem interleave_getD (f g : Nat → ℚ) :
    ∀ (i : Nat), ∀ {n : Nat}, i < n →
      (((List.range n).flatMap (fun k => [f k, g k])).getD (2 * i) 0 = f i ∧
        ((List.range n).flatMap (fun k => [f k, g k])).getD (2 * i + 1) 0 = g i) := by
  intro i
  induction i generalizing f g with
  | zero =>
    intro n hn
    cases n with
    | zero => omega
    | succ m =>
      rw [List.range_succ_eq_map, List.flatMap_cons]
      simp [List.cons_append, List.getD_cons_zero, List.getD_cons_succ]
  | succ ip ih =>
    intro n hn
    cases n with
    | zero => omega
    | succ m =>
      rw [List.range_succ_eq_map, List.flatMap_cons, List.flatMap_map]
      have h2 : 2 * (ip + 1) = 2 * ip + 1 + 1 := by ring
      rw [h2]
      simp only [List.cons_append, List.nil_append, List.getD_cons_succ]
      have hih := ih (fun k => f (k + 1)) (fun k => g (k + 1)) (n := m) (by omega)
      simpa [Nat.succ_eq_add_one] using hih

theorem map_getD_of_lt {α β : Type} [Inhabited α] [Inhabited β] (f : α → β)
    (l : List α) (i : Nat) (hi : i < l.length) (d1 : β) (d2 : α) :
    (l.map f).getD i d1 = f (l.getD i d2) := by
  rw [List.getD_eq_getElem _ _ (by simpa using hi), List.getElem_map,
    List.getD_eq_getElem _ _ hi]

/-- Components of the `TransformError` residual vector: entry `2 i` is the
reprojection distance over `0.5`, entry `2 i + 1` the plane distance over
the depth error function at the transformed corner's depth. -/
theorem transformErrorResiduals_components (ops : TrigOps) (proj : Pt3 → Pt2)
    (defc : List ℚ) (v : TView) (cp pose : Vec6) (i : Nat)
    (hi : i < v.corners.length) :
    (transformErrorResiduals ops proj defc v cp pose).getD (2 * i) 0 =
      norm2 ops.sqrt
        (sub2 (proj (aaTransformPt ops pose (v.corners.getD i ((0 : ℚ), (0 : ℚ), (0 : ℚ)))))
          (v.imgCorners.getD i ((0 : ℚ), (0 : ℚ)))) / 0.5 ∧
    (transformErrorResiduals ops proj defc v cp pose).getD (2 * i + 1) 0 =
      planeAbsDist v.depthPlane
          (aaTransformPt ops cp
            (aaTransformPt ops pose (v.corners.getD i ((0 : ℚ), (0 : ℚ), (0 : ℚ))))) /
        polyEval defc
          (zOf (aaTransformPt ops cp
            (aaTransformPt ops pose (v.corners.getD i ((0 : ℚ), (0 : ℚ), (0 : ℚ)))))) := by
  unfold transformErrorResiduals
  have hmap1 :
      ((v.corners.map (fun c => aaTransformPt ops pose c)).map proj).getD i ((0 : ℚ), (0 : ℚ)) =
        proj (aaTransformPt ops pose (v.corners.getD i ((0 : ℚ), (0 : ℚ), (0 : ℚ)))) := by
    rw [map_getD_of_lt proj _ i (by simpa using hi) _ ((0 : ℚ), (0 : ℚ), (0 : ℚ)),
      map_getD_of_lt _ _ i hi]
  have hmap2 :
      ((v.corners.map (fun c => aaTransformPt ops pose c)).map
          (fun c => aaTransformPt ops cp c)).getD i ((0 : ℚ), (0 : ℚ), (0 : ℚ)) =
        aaTransformPt ops cp
          (aaTransformPt ops pose (v.corners.getD i ((0 : ℚ), (0 : ℚ), (0 : ℚ)))) := by
    rw [map_getD_of_lt _ _ i (by simpa using hi) _ ((0 : ℚ), (0 : ℚ), (0 : ℚ)),
      map_getD_of_lt _ _ i hi]
  have h := interleave_getD
    (fun k =>
      norm2 ops.sqrt
        (sub2 (((v.corners.map (fun c => aaTransformPt ops pose c)).map proj).getD k (0, 0))
          (v.imgCorners.getD k (0, 0))) / 0.5)
    (fun k =>
      planeAbsDist v.depthPlane
          (((v.corners.map (fun c => aaTransformPt ops pose c)).map
              (fun c => aaTransformPt ops cp c)).getD k (0, 0, 0)) /
        polyEval defc
          (zOf (((v.corners.map (fun c => aaTransformPt ops pose c)).map
              (fun c => aaTransformPt ops cp c)).getD k (0, 0, 0))))
    i hi
  exact ⟨h.1.trans (by simp only [hmap1]), h.2.trans (by simp only [hmap2])⟩

/-- C4: the transform-only problem holds one residual block per accepted
view of size `2 * corner count` over the shared pose block and the view's
pose block, under a Cauchy loss; entry `2 i` of a block's residual is the
reprojection distance of corner `i` under the candidate checkerboard pose
divided by 0.5, entry `2 i + 1` its absolute distance to the depth-fitted
plane divided by the depth error function at its depth; the solve uses the
sparse Schur solver capped at 100 iterations. -/
theorem optimizeTransform_problem_contract (ops : TrigOps) (proj : Pt3 → Pt2)
    (defc : List ℚ) (views : List TView) :
    (optimizeTransformProblem ops proj defc views).length = views.length ∧
    optimizeTransformOptions =
      ⟨LinearSolverType.SPARSE_SCHUR, 100⟩ ∧
    (∀ (s : CalibrationState) (t : Vec6) (d : Nat → Vec6),
      (optimizeTransformRun ops proj s views t d).2.2 =
        optimizeTransformProblem ops proj s.depthErrorCoeffs views) ∧
    (∀ (k : Nat) (hk : k < views.length)
        (hkb : k < (optimizeTransformProblem ops proj defc views).length),
      ((optimizeTransformProblem ops proj defc views).get ⟨k, hkb⟩).numResiduals =
        2 * (views.get ⟨k, hk⟩).corners.length ∧
      ((optimizeTransformProblem ops proj defc views).get ⟨k, hkb⟩).paramSizes = [6, 6] ∧
      ((optimizeTransformProblem ops proj defc views).get ⟨k, hkb⟩).loss =
        LossKind.cauchy 1 ∧
      (∀ (cp pose : Vec6) (i : Nat), i < (views.get ⟨k, hk⟩).corners.length →
        (((optimizeTransformProblem ops proj defc views).get ⟨k, hkb⟩).residual cp
              pose).getD (2 * i) 0 =
          norm2 ops.sqrt
            (sub2 (proj (aaTransformPt ops pose
                ((views.get ⟨k, hk⟩).corners.getD i ((0 : ℚ), (0 : ℚ), (0 : ℚ)))))
              ((views.get ⟨k, hk⟩).imgCorners.getD i ((0 : ℚ), (0 : ℚ)))) / 0.5 ∧
        (((optimizeTransformProblem ops proj defc views).get ⟨k, hkb⟩).residual cp
              pose).getD (2 * i + 1) 0 =
          planeAbsDist (views.get ⟨k, hk⟩).depthPlane
              (aaTransformPt ops cp (aaTransformPt ops pose
                ((views.get ⟨k, hk⟩).corners.getD i ((0 : ℚ), (0 : ℚ), (0 : ℚ))))) /
            polyEval defc
              (zOf (aaTransformPt ops cp (aaTransformPt ops pose
                ((views.get ⟨k, hk⟩).corners.getD i ((0 : ℚ), (0 : ℚ), (0 : ℚ)))))))) := by
  refine ⟨by simp [optimizeTransformProblem], rfl, fun s t d => rfl, ?_⟩
  intro k hk hkb
  have hblock : (optimizeTransformProblem ops proj defc views).get ⟨k, hkb⟩ =
      { numResiduals := 2 * (views.get ⟨k, hk⟩).corners.length
        paramSizes := [6, 6]
        loss := .cauchy 1
        residual := fun transform pose =>
          transformErrorResiduals ops proj defc (views.get ⟨k, hk⟩) transform pose } := by
    simp [optimizeTransformProblem, List.get_eq_getElem, List.getElem_map]
  rw [hblock]
  refine ⟨rfl, rfl, rfl, ?_⟩
  intro cp pose i hi
  exact transformErrorResiduals_components ops proj defc _ cp pose i hi

/-- Witness for C4 at a one-view, one-corner problem. -/
theorem optimizeTransform_problem_witness :
    (0 : Nat) < 1 ∧
    (optimizeTransformProblem exOps exProj [] [exTView]).length = 1 ∧
    ((optimizeTransformProblem exOps exProj [] [exTView]).get
        ⟨0, by decide⟩).numResiduals = 2 * 1 ∧
    ((optimizeTransformProblem exOps exProj [] [exTView]).get ⟨0, by decide⟩).loss =
      LossKind.cauchy 1 ∧
    (((optimizeTransformProblem exOps exProj [] [exTView]).get ⟨0, by decide⟩).residual
        (fun _ => 0) (fun _ => 0)).getD 0 0 =
      norm2 exOps.sqrt
        (sub2 (exProj (aaTransformPt exOps (fun _ => 0)
            (exTView.corners.getD 0 ((0 : ℚ), (0 : ℚ), (0 : ℚ)))))
          (exTView.imgCorners.getD 0 ((0 : ℚ), (0 : ℚ)))) / 0.5 := by
  have h := optimizeTransform_problem_contract exOps exProj [] [exTView]
  have hk := h.2.2.2 0 (by decide) (by decide)
  have hcomp := (hk.2.2.2 (fun _ => 0) (fun _ => 0) 0 (by decide)).1
  simp only [Nat.mul_zero] at hcomp
  exact ⟨by decide, h.1, hk.1, hk.2.2.1, hcomp⟩

/-- C5 counterexample: in full mode the reprojection residual of
`ReprojectionError` is the corner difference divided by
`0.5 * sqrt(corner count)`, not by `0.5` alone: with four corners the first
residual component is 1, while the claimed normalization gives 2. -/
theorem reprojection_half_normalization_cex :
    (reprojectionErrorResiduals exSqrtC5 exProjShift exCorners4 exImg4
        ((1 : ℚ), (0 : ℚ), (0 : ℚ), (0 : ℚ)) ((0 : ℚ), (0 : ℚ), (0 : ℚ))).getD 0
        ((0 : ℚ), (0 : ℚ)) ≠
      (((exProjShift (quatTransformPt ((1 : ℚ), (0 : ℚ), (0 : ℚ), (0 : ℚ))
              ((0 : ℚ), (0 : ℚ), (0 : ℚ))
              (exCorners4.getD 0 ((0 : ℚ), (0 : ℚ), (0 : ℚ))))).1 -
          (exImg4.getD 0 ((0 : ℚ), (0 : ℚ))).1) / 0.5,
        ((exProjShift (quatTransformPt ((1 : ℚ), (0 : ℚ), (0 : ℚ), (0 : ℚ))
              ((0 : ℚ), (0 : ℚ), (0 : ℚ))
              (exCorners4.getD 0 ((0 : ℚ), (0 : ℚ), (0 : ℚ))))).2 -
          (exImg4.getD 0 ((0 : ℚ), (0 : ℚ))).2) / 0.5) := by
  simp [reprojectionErrorResiduals, quatTransformPt, quatRotate, cross3, add3, smul3,
    exProjShift, exCorners4, exImg4, exSqrtC5]
  norm_num

/-- C5 (amended): every component of the full-mode reprojection residual is
the difference between the reprojected and the detected corner coordinate
divided by `0.5` times the square root of the corner count. -/
theorem reprojectionError_components (sqrt : ℚ → ℚ) (proj : Pt3 → Pt2)
    (corners : List Pt3) (imgCorners : List Pt2) (q : ℚ × ℚ × ℚ × ℚ) (t : Pt3)
    (i : Nat) (hi : i < corners.length)
    (hlen : imgCorners.length = corners.length) :
    (reprojectionErrorResiduals sqrt proj corners imgCorners q t).getD i
        ((0 : ℚ), (0 : ℚ)) =
      (((proj (quatTransformPt q t (corners.getD i ((0 : ℚ), (0 : ℚ), (0 : ℚ))))).1 -
          (imgCorners.getD i ((0 : ℚ), (0 : ℚ))).1) /
          (0.5 * sqrt ((corners.length : ℚ))),
        ((proj (quatTransformPt q t (corners.getD i ((0 : ℚ), (0 : ℚ), (0 : ℚ))))).2 -
          (imgCorners.getD i ((0 : ℚ), (0 : ℚ))).2) /
          (0.5 * sqrt ((corners.length : ℚ)))) := by
  unfold reprojectionErrorResiduals
  have hlen2 :
      i < (((corners.map (fun c => quatTransformPt q t c)).map proj).zip imgCorners).length := by
    simp [hlen, hi]
  rw [List.getD_eq_getElem _ _ (by simpa using hlen2), List.getElem_map,
    List.getElem_zip, List.getElem_map, List.getElem_map,
    List.getD_eq_getElem _ _ hi, List.getD_eq_getElem _ _ (by omega)]

/-- Witness for C5 at the concrete four-corner view. -/
theorem reprojectionError_components_witness :
    ((0 : Nat) < exCorners4.length ∧ exImg4.length = exCorners4.length) ∧
    (reprojectionErrorResiduals exSqrtC5 exProjShift exCorners4 exImg4
        ((1 : ℚ), (0 : ℚ), (0 : ℚ), (0 : ℚ)) ((0 : ℚ), (0 : ℚ), (0 : ℚ))).getD 0
        ((0 : ℚ), (0 : ℚ)) =
      (((exProjShift (quatTransformPt ((1 : ℚ), (0 : ℚ), (0 : ℚ), (0 : ℚ))
              ((0 : ℚ), (0 : ℚ), (0 : ℚ))
              (exCorners4.getD 0 ((0 : ℚ), (0 : ℚ), (0 : ℚ))))).1 -
          (exImg4.getD 0 ((0 : ℚ), (0 : ℚ))).1) /
          (0.5 * exSqrtC5 ((exCorners4.length : ℚ))),
        ((exProjShift (quatTransformPt ((1 : ℚ), (0 : ℚ), (0 : ℚ), (0 : ℚ))
              ((0 : ℚ), (0 : ℚ), (0 : ℚ))
              (exCorners4.getD 0 ((0 : ℚ), (0 : ℚ), (0 : ℚ))))).2 -
          (exImg4.getD 0 ((0 : ℚ), (0 : ℚ))).2) /
          (0.5 * exSqrtC5 ((exCorners4.length : ℚ)))) :=
  ⟨⟨by decide, by decide⟩,
    reprojectionError_components exSqrtC5 exProjShift exCorners4 exImg4
      ((1 : ℚ), (0 : ℚ), (0 : ℚ), (0 : ℚ)) ((0 : ℚ), (0 : ℚ), (0 : ℚ)) 0 (by decide)
      (by decide)⟩

/-- C10: `optimizeTransform` writes only the color-sensor pose: the views
and their checkerboard poses, the depth sensor data, the stored depth
intrinsics and both undistortion models are unchanged, and the result does
not depend on the solver's per-view pose matrix, which is discarded. -/
theorem optimizeTransform_frame_effect (ops : TrigOps) (proj : Pt3 → Pt2)
    (s : CalibrationState) (views : List TView) (t : Vec6)
    (d1 d2 : Nat → Vec6) :
    let r := optimizeTransformRun ops proj s views t d1
    r.1.depthErrorCoeffs = s.depthErrorCoeffs ∧
    r.1.depthIntrinsics = s.depthIntrinsics ∧
    r.1.ratio = s.ratio ∧
    r.1.localModel = s.localModel ∧
    r.1.globalModel = s.globalModel ∧
    r.1.localMatrix = s.localMatrix ∧
    r.1.globalMatrix = s.globalMatrix ∧
    r.2.1 = views ∧
    r.1.colorPoseAA = (t 0, t 1, t 2) ∧
    r.1.colorPoseT = (t 3, t 4, t 5) ∧
    optimizeTransformRun ops proj s views t d1 =
      optimizeTransformRun ops proj s views t d2 :=
  ⟨rfl, rfl, rfl, rfl, rfl, rfl, rfl, rfl, rfl, rfl, rfl⟩

/-! ## Claim theorems: full-mode write-back -/

theorem polyEvalGM_mulVec {SIZE : Nat} (minDeg : Nat) (c : Fin SIZE → ℚ)
    (i : Fin SIZE) :
    polyEvalGM minDeg c (((i : Nat) : ℚ) + 1) = (contA SIZE minDeg).mulVec c i := by
  unfold polyEvalGM contA Matrix.mulVec
  simp [Matrix.dotProduct, mul_comm]

theorem solveCell11_mulVec {SIZE : Nat} (minDeg : Nat) (g00 g01 g10 : Fin SIZE → ℚ)
    (hdet : (contA SIZE minDeg).det ≠ 0) :
    (contA SIZE minDeg).mulVec (solveCell11 minDeg g00 g01 g10) =
      contB minDeg g00 g01 g10 := by
  unfold solveCell11
  rw [Matrix.mulVec_smul, Matrix.mulVec_cramer, smul_smul, inv_mul_cancel₀ hdet,
    one_smul]

/-- C3: after the full-mode solve, the color pose is the refined quaternion
plus translation block, the fourth global cell is solved from the three
fitted cells so that its polynomial agrees with `p01 + p10 - p00` at the
sample points `x = 1 .. SIZE`, and the stored depth intrinsics are updated
multiplicatively on the focal lengths and additively on the principal
point. -/
theorem optimizeAll_writeback {SIZE : Nat} (minDeg : Nat) (s : FullModeState SIZE)
    (transform : Fin 7 → ℚ) (delta : Fin 4 → ℚ) (g00 g01 g10 : Fin SIZE → ℚ)
    (hdet : (contA SIZE minDeg).det ≠ 0) :
    (optimizeAllPost minDeg s transform delta g00 g01 g10).colorPoseQ =
        (transform 0, transform 1, transform 2, transform 3) ∧
    (optimizeAllPost minDeg s transform delta g00 g01 g10).colorPoseT =
        (transform 4, transform 5, transform 6) ∧
    (∀ i : Fin SIZE,
      polyEvalGM minDeg (optimizeAllPost minDeg s transform delta g00 g01 g10).p11
          (((i : Nat) : ℚ) + 1) =
        polyEvalGM minDeg g01 (((i : Nat) : ℚ) + 1) +
          polyEvalGM minDeg g10 (((i : Nat) : ℚ) + 1) -
          polyEvalGM minDeg g00 (((i : Nat) : ℚ) + 1)) ∧
    (optimizeAllPost minDeg s transform delta g00 g01 g10).p00 = g00 ∧
    (optimizeAllPost minDeg s transform delta g00 g01 g10).p01 = g01 ∧
    (optimizeAllPost minDeg s transform delta g00 g01 g10).p10 = g10 ∧
    (optimizeAllPost minDeg s transform delta g00 g01 g10).depthIntrinsics 0 =
        s.depthIntrinsics 0 * delta 0 ∧
    (optimizeAllPost minDeg s transform delta g00 g01 g10).depthIntrinsics 1 =
        s.depthIntrinsics 1 * delta 1 ∧
    (optimizeAllPost minDeg s transform delta g00 g01 g10).depthIntrinsics 2 =
        s.depthIntrinsics 2 + delta 2 ∧
    (optimizeAllPost minDeg s transform delta g00 g01 g10).depthIntrinsics 3 =
        s.depthIntrinsics 3 + delta 3 := by
  refine ⟨rfl, rfl, ?_, rfl, rfl, rfl, rfl, rfl, rfl, rfl⟩
  intro i
  have h1 : (optimizeAllPost minDeg s transform delta g00 g01 g10).p11 =
      solveCell11 minDeg g00 g01 g10 := rfl
  rw [h1, polyEvalGM_mulVec, solveCell11_mulVec minDeg g00 g01 g10 hdet]
  rfl

/-- The boundary-continuity matrix at the concrete size 3 with minimum
degree 0 is invertible. -/
theorem contA_det_3 : (contA 3 0).det ≠ 0 := by
  rw [Matrix.det_fin_three]
  norm_num [contA]

/-- Witness for C3 at the concrete size-3 instance. -/
theorem optimizeAll_writeback_witness :
    (contA 3 0).det ≠ 0 ∧
    polyEvalGM 0 (optimizeAllPost 0 exFullState exT7 exD4 exG3 exG3 exG3).p11
        ((((0 : Fin 3) : Nat) : ℚ) + 1) =
      polyEvalGM 0 exG3 ((((0 : Fin 3) : Nat) : ℚ) + 1) +
        polyEvalGM 0 exG3 ((((0 : Fin 3) : Nat) : ℚ) + 1) -
        polyEvalGM 0 exG3 ((((0 : Fin 3) : Nat) : ℚ) + 1) ∧
    (optimizeAllPost 0 exFullState exT7 exD4 exG3 exG3 exG3).depthIntrinsics 0 =
      exFullState.depthIntrinsics 0 * exD4 0 :=
  ⟨contA_det_3,
    (optimizeAll_writeback 0 exFullState exT7 exD4 exG3 exG3 exG3 contA_det_3).2.2.1 0,
    (optimizeAll_writeback 0 exFullState exT7 exD4 exG3 exG3 exG3
        contA_det_3).2.2.2.2.2.2.1⟩

end RGBDCalib
